import Mathlib

/-!
Verification of the model resolution and caching core of the
stable-diffusion-task repository (file
`src/sd_task/inference_task_runner/download_model.py`).

The development shallowly embeds the five components of that file:

* the cache path computation (SHA-256 digest of the identifier under the
  external cache root),
* the URL model fetcher `check_and_download_external_model`,
* the named-model fetcher `check_and_download_hf_model`,
* the proxy resolver `get_hf_proxy_dict`,
* the dispatcher `check_and_download_model_by_name` and the orchestrator
  `check_and_prepare_models`.

Side effects are made explicit: the filesystem is a value of type `FS`,
the network is an oracle `String → NetResult`, and every externally
visible action (directory creation, HTTP request, file writes, file
removal, loader invocation) is recorded in an event trace.  Python
exceptions are values of type `PyErr` threaded through `Except`.
-/

/- ### SHA-256, modelling `hashlib.sha256(...).hexdigest()` over UTF-8 bytes.

Machine words are naturals reduced modulo 2^32.  The implementation is
checked below against the FIPS 180-4 test vectors for "abc" and "". -/

/-- Truncate a natural number to a 32-bit word. -/
def w32 (n : Nat) : Nat := n % 4294967296

/-- Right-rotation of a 32-bit word by `n` places (the two shifted parts
are bit-disjoint, so their sum is their bitwise or). -/
def rotr32 (n x : Nat) : Nat := (x >>> n) + ((x % 2 ^ n) * 2 ^ (32 - n))

/-- Bitwise complement of a 32-bit word. -/
def bnot32 (x : Nat) : Nat := 4294967295 - x

/-- The SHA-256 choice function. -/
def shaCh (x y z : Nat) : Nat := (x &&& y) ^^^ (bnot32 x &&& z)

/-- The SHA-256 majority function. -/
def shaMaj (x y z : Nat) : Nat := (x &&& y) ^^^ (x &&& z) ^^^ (y &&& z)

/-- The SHA-256 compression function Sigma0. -/
def bigSigma0 (x : Nat) : Nat := rotr32 2 x ^^^ rotr32 13 x ^^^ rotr32 22 x

/-- The SHA-256 compression function Sigma1. -/
def bigSigma1 (x : Nat) : Nat := rotr32 6 x ^^^ rotr32 11 x ^^^ rotr32 25 x

/-- The SHA-256 message schedule function sigma0. -/
def smallSigma0 (x : Nat) : Nat := rotr32 7 x ^^^ rotr32 18 x ^^^ (x >>> 3)

/-- The SHA-256 message schedule function sigma1. -/
def smallSigma1 (x : Nat) : Nat := rotr32 17 x ^^^ rotr32 19 x ^^^ (x >>> 10)

/-- The 64 SHA-256 round constants. -/
def sha256K : List Nat :=
  [1116352408, 1899447441, 3049323471, 3921009573, 961987163, 1508970993,
   2453635748, 2870763221, 3624381080, 310598401, 607225278, 1426881987,
   1925078388, 2162078206, 2614888103, 3248222580, 3835390401, 4022224774,
   264347078, 604807628, 770255983, 1249150122, 1555081692, 1996064986,
   2554220882, 2821834349, 2952996808, 3210313671, 3336571891, 3584528711,
   113926993, 338241895, 666307205, 773529912, 1294757372, 1396182291,
   1695183700, 1986661051, 2177026350, 2456956037, 2730485921, 2820302411,
   3259730800, 3345764771, 3516065817, 3600352804, 4094571909, 275423344,
   430227734, 506948616, 659060556, 883997877, 958139571, 1322822218,
   1537002063, 1747873779, 1955562222, 2024104815, 2227730452, 2361852424,
   2428436474, 2756734187, 3204031479, 3329325298]

/-- The SHA-256 initial hash value. -/
def sha256Init : List Nat :=
  [1779033703, 3144134277, 1013904242, 2773480762, 1359893119, 2600822924,
   528734635, 1541459225]

/-- Big-endian bytes of a number, fixed width of `k` bytes. -/
def beBytes (k n : Nat) : List Nat :=
  match k with
  | 0 => []
  | k + 1 => (n >>> (8 * k)) % 256 :: beBytes k (n % 2 ^ (8 * k))

/-- SHA-256 padding: append the byte 0x80, zero bytes up to 56 modulo 64,
then the 64-bit big-endian bit length of the message. -/
def sha256Pad (msg : List Nat) : List Nat :=
  let L := msg.length
  let k := (64 + 55 - L % 64) % 64
  msg ++ 128 :: List.replicate k 0 ++ beBytes 8 (8 * L)

/-- Split a byte list into 64-byte blocks; the fuel argument makes the
recursion structural, so the function reduces inside the kernel. -/
def chunks64Go : Nat → List Nat → List (List Nat)
  | 0, _ => []
  | _, [] => []
  | fuel + 1, a :: rest => (a :: rest).take 64 :: chunks64Go fuel ((a :: rest).drop 64)

/-- Split a byte list into 64-byte blocks. -/
def chunks64 (l : List Nat) : List (List Nat) := chunks64Go l.length l

/-- Parse 4-byte groups as big-endian 32-bit words. -/
def words32 (l : List Nat) : List Nat :=
  match l with
  | b0 :: b1 :: b2 :: b3 :: rest => (((b0 * 256 + b1) * 256 + b2) * 256 + b3) :: words32 rest
  | _ => []

/-- Extend the 16 message words of a block to the 64-entry schedule. -/
def sha256Schedule (ws : List Nat) : Array Nat :=
  (List.range 48).foldl
    (fun a _ =>
      let t := a.size
      a.push (w32 (smallSigma1 (a.getD (t - 2) 0) + a.getD (t - 7) 0 +
                   smallSigma0 (a.getD (t - 15) 0) + a.getD (t - 16) 0)))
    ws.toArray

/-- One SHA-256 round on the eight-word working state. -/
def sha256Round (st : List Nat) (kw : Nat × Nat) : List Nat :=
  match st with
  | [a, b, c, d, e, f, g, h] =>
    let t1 := w32 (h + bigSigma1 e + shaCh e f g + kw.1 + kw.2)
    let t2 := w32 (bigSigma0 a + shaMaj a b c)
    [w32 (t1 + t2), a, b, c, w32 (d + t1), e, f, g]
  | other => other

/-- Compress one 64-byte block into the chaining value. -/
def sha256Compress (hs : List Nat) (block : List Nat) : List Nat :=
  let w := sha256Schedule (words32 block)
  let st := (sha256K.zip w.toList).foldl sha256Round hs
  List.zipWith (fun x y => w32 (x + y)) hs st

/-- The SHA-256 digest (32 bytes) of a byte sequence. -/
def sha256Bytes (msg : List Nat) : List Nat :=
  let hs := (chunks64 (sha256Pad msg)).foldl sha256Compress sha256Init
  (hs.map (beBytes 4)).flatten

/-- Lower-case hexadecimal digit for a value below 16. -/
def hexDigit (n : Nat) : Char := Char.ofNat (if n < 10 then 48 + n else 87 + n)

/-- Lower-case hexadecimal character rendering of a byte list. -/
def toHexChars (bs : List Nat) : List Char :=
  (bs.map (fun b => [hexDigit (b / 16), hexDigit (b % 16)])).flatten

/-- Lower-case hexadecimal string rendering of a byte list. -/
def toHexStr (bs : List Nat) : String := String.mk (toHexChars bs)

/-- UTF-8 encoding of a Unicode code point. -/
def utf8EncodeChar (c : Nat) : List Nat :=
  if c < 128 then [c]
  else if c < 2048 then [192 + c / 64, 128 + c % 64]
  else if c < 65536 then [224 + c / 4096, 128 + (c / 64) % 64, 128 + c % 64]
  else [240 + c / 262144, 128 + (c / 4096) % 64, 128 + (c / 64) % 64, 128 + c % 64]

/-- UTF-8 bytes of a string, as the Python expression `s.encode('utf-8')`. -/
def utf8Bytes (s : String) : List Nat := (s.data.map (fun c => utf8EncodeChar c.toNat)).flatten

/-- Hexadecimal SHA-256 digest of the UTF-8 bytes of a string: the model of
`hashlib.sha256(model_name.encode('utf-8')).hexdigest()` at lines 75 to 77 of
`download_model.py`. -/
def sha256Hex (s : String) : String := toHexStr (sha256Bytes (utf8Bytes s))

/-- FIPS 180-4 test vector: the implementation of SHA-256 used by the cache
path model is the real hash function, checked on "abc". -/
theorem sha256Hex_abc :
    sha256Hex "abc" = "ba7816bf8f01cfea414140de5dae2223b00361a396177a9cb410ff61f20015ad" := by decide

/-- FIPS 180-4 test vector for the empty message. -/
theorem sha256Hex_empty :
    sha256Hex "" = "e3b0c44298fc1c149afbf4c8996fb92427ae41e4649b934ca495991b7852b855" := by decide

/- ### Paths and the filesystem model. -/

/-- Whether a string starts with the path separator. -/
def startsWithSlash (s : String) : Bool := decide (s.data.head? = some '/')

/-- Whether a string ends with the path separator. -/
def endsWithSlash (s : String) : Bool := decide (s.data.getLast? = some '/')

/-- Model of `os.path.join(a, b)` on POSIX for a single join: an absolute
second component replaces the first; otherwise the components are joined
with a separator unless one is already present. -/
def osPathJoin (a b : String) : String :=
  if startsWithSlash b then b
  else if a = "" || endsWithSlash a then a ++ b
  else a ++ "/" ++ b

/-- Python exception values observed by this core. -/
inductive PyErr where
  /-- Attribute access on `None`, as raised by `proxy.host` when `proxy` is `None`. -/
  | attributeError
  /-- `dict.pop(key)` on an absent key. -/
  | keyError (k : String)
  /-- `os.mkdir` on an existing path. -/
  | fileExistsError
  /-- Any other exception (network, disk, loader), identified by a tag so
  that re-raising the same exception is expressible. -/
  | exn (n : Nat)
deriving Repr, DecidableEq

/-- Modelled from the spec: the proxy policy record `ProxyConfig` is defined
in `sd_task/config.py`, which is outside the provided sources; the spec
describes it as `{host: string, port: integer, username: string,
password: string}`. -/
structure ProxyConfig where
  host : String
  port : Nat
  username : String
  password : String
deriving Repr, DecidableEq

/-- The `{https, http}` proxy mapping built for the named-model path. -/
structure HfProxyDict where
  https : String
  http : String
deriving Repr, DecidableEq

/-- Torch floating point precision marker; the code always passes
`torch.float16` (half precision). -/
inductive TorchDtype where
  | float16
  | float32
deriving Repr, DecidableEq

/-- The keyword arguments `check_and_download_hf_model` passes to the
external loader function. -/
structure HFCallArgs where
  proxy : Option HfProxyDict
  cache_dir : String
  torch_dtype : TorchDtype
  resume_download : Bool
deriving Repr, DecidableEq

/-- The HTTP client built by the URL fetcher: either a
`urllib3.ProxyManager` for an endpoint with an optional basic-auth
credential pair, or a direct `urllib3.PoolManager`. -/
inductive HttpClient where
  | proxied (endpoint : String) (basicAuth : Option String)
  | direct
deriving Repr, DecidableEq

/-- Observable effects of one resolution run. -/
inductive Event where
  /-- `os.mkdir` of the cache directory. -/
  | mkdirE (p : String)
  /-- Construction of the HTTP client. -/
  | connect (c : HttpClient)
  /-- The `GET` request issued for a URL. -/
  | netRequest (url : String)
  /-- Opening the artifact file for writing (truncate or create). -/
  | openWrite (p : String)
  /-- One chunk of `sz` bytes written to the artifact file. -/
  | writeChunk (p : String) (sz : Nat)
  /-- `os.remove` of the artifact file. -/
  | removeFile (p : String)
  /-- Invocation of the external loader function. -/
  | loaderCall (name : String) (args : HFCallArgs)
deriving Repr, DecidableEq

/-- Behaviour of the network oracle for one `GET` request: either the
connect or request raises, or it yields a streaming response with an
optional content length, the chunk sequence delivered, and an optional
exception raised during streaming after those chunks. -/
inductive NetResult where
  | connectError (e : PyErr)
  | stream (contentLength : Option Nat) (chunks : List (List Nat)) (failure : Option PyErr)
deriving Repr, DecidableEq

/-- The filesystem: a set of existing directories and a map from file
paths to byte contents. -/
structure FS where
  dirs : List String
  files : List (String × List Nat)
deriving Repr, DecidableEq

/-- Model of `os.path.isdir`. -/
def FS.isdir (fs : FS) (p : String) : Bool := fs.dirs.any fun q => decide (q = p)

/-- The content of the file at `p`, if a file exists there. -/
def FS.findFile (fs : FS) (p : String) : Option (List Nat) :=
  (fs.files.find? fun e => decide (e.1 = p)).map Prod.snd

/-- Model of `os.path.isfile`. -/
def FS.isfile (fs : FS) (p : String) : Bool := (fs.findFile p).isSome

/-- Write a file at `p` with content `c` (truncate or create). -/
def FS.writeFile (fs : FS) (p : String) (c : List Nat) : FS :=
  ⟨fs.dirs, (p, c) :: fs.files.filter fun e => decide (e.1 ≠ p)⟩

/-- Append bytes to the file at `p` (the file already exists after the
open; an absent file is treated as empty). -/
def FS.appendFile (fs : FS) (p : String) (c : List Nat) : FS :=
  fs.writeFile p ((fs.findFile p).getD [] ++ c)

/-- Model of `os.remove`. -/
def FS.removeFile (fs : FS) (p : String) : FS :=
  ⟨fs.dirs, fs.files.filter fun e => decide (e.1 ≠ p)⟩

/-- Model of `os.mkdir` (mode 0o755): fails on an existing path; the
parent cache root is assumed provisioned, as the spec places cache root
configuration outside this core. -/
def FS.mkdir (fs : FS) (p : String) : Except PyErr FS :=
  if fs.isdir p || fs.isfile p then .error .fileExistsError
  else .ok ⟨p :: fs.dirs, fs.files⟩

/-- Result of one fetcher run: the final filesystem, the effect trace, and
either the returned local reference string or the raised exception. -/
structure FetchOutcome where
  fs : FS
  trace : List Event
  result : Except PyErr String

/-- External loader functions (`ModelMixin.from_pretrained`,
`LoraLoaderMixin.lora_state_dict`, `load_textual_inversion_state_dicts`)
are opaque callables: they observe the identifier and the keyword
arguments and either return or raise. -/
def Loader : Type := String → HFCallArgs → Except PyErr Unit

/- ### Embedded code: `download_model.py`. -/

/-- Cache directory for a URL identifier, as computed at lines 75 to 78 of
`download_model.py`: the external cache root joined with the hexadecimal
SHA-256 digest of the identifier. -/
def model_folder_of (external_cache_dir model_name : String) : String :=
  osPathJoin external_cache_dir (sha256Hex model_name)

/-- Artifact file inside the cache directory, line 79: the fixed name
`model.safetensors`. -/
def model_file_of (external_cache_dir model_name : String) : String :=
  osPathJoin (model_folder_of external_cache_dir model_name) "model.safetensors"

/-- Proxy resolver `get_hf_proxy_dict`, lines 156 to 166: `None` or an
empty host yields no proxy; otherwise both protocol entries map to
`host:port`. -/
def get_hf_proxy_dict (proxy : Option ProxyConfig) : Option HfProxyDict :=
  match proxy with
  | some p =>
    if p.host ≠ "" then
      let proxy_str := p.host ++ ":" ++ toString p.port
      some { https := proxy_str, http := proxy_str }
    else none
  | none => none

/-- Named-model fetcher `check_and_download_hf_model`, lines 136 to 153:
builds the fixed call arguments, invokes the loader once, and returns the
identifier unchanged; a loader exception propagates as is. -/
def check_and_download_hf_model (model_name : String) (loader_fn : Loader)
    (hf_cache_dir : String) (proxy : Option ProxyConfig) (fs : FS) : FetchOutcome :=
  let call_args : HFCallArgs :=
    { proxy := get_hf_proxy_dict proxy
      cache_dir := hf_cache_dir
      torch_dtype := .float16
      resume_download := true }
  match loader_fn model_name call_args with
  | .ok _ => ⟨fs, [.loaderCall model_name call_args], .ok model_name⟩
  | .error e => ⟨fs, [.loaderCall model_name call_args], .error e⟩

/-- Write the streamed chunks to the artifact file, lines 121 to 125: each
non-empty 1024-byte chunk is appended; empty chunks are skipped by the
`if chunk:` guard. -/
def writeChunks (p : String) (chunks : List (List Nat)) (fs : FS) : FS × List Event :=
  match chunks with
  | [] => (fs, [])
  | c :: rest =>
    if c = [] then writeChunks p rest fs
    else
      let r := writeChunks p rest (fs.appendFile p c)
      (r.1, .writeChunk p c.length :: r.2)

/-- Body of the `try` block of `check_and_download_external_model`, lines
98 to 127: build the HTTP client from the proxy policy (attribute access
`proxy.host` on `None` raises), issue the request, stream the body to the
artifact file, and return the cache directory.  The content-length header
only sizes the progress indicator and has no other effect. -/
def tryDownload (model_name model_folder model_file : String) (proxy : Option ProxyConfig)
    (net : String → NetResult) (fs : FS) : FetchOutcome :=
  match proxy with
  | none => ⟨fs, [], .error .attributeError⟩
  | some p =>
    let http : HttpClient :=
      if p.host ≠ "" then
        .proxied (p.host ++ ":" ++ toString p.port)
          (if p.username ≠ "" ∧ p.password ≠ "" then some (p.username ++ ":" ++ p.password)
           else none)
      else .direct
    match net model_name with
    | .connectError e => ⟨fs, [.connect http, .netRequest model_name], .error e⟩
    | .stream _ chunks failure =>
      let fs1 := fs.writeFile model_file []
      let w := writeChunks model_file chunks fs1
      let tr := [.connect http, .netRequest model_name, .openWrite model_file] ++ w.2
      match failure with
      | some e => ⟨w.1, tr, .error e⟩
      | none => ⟨w.1, tr, .ok model_folder⟩

/-- The `try`/`except` of `check_and_download_external_model`, lines 97 to
133: on any exception from the body, delete the artifact file if it
exists, then re-raise the same exception. -/
def downloadExternal (model_name model_folder model_file : String) (proxy : Option ProxyConfig)
    (net : String → NetResult) (fs : FS) : FetchOutcome :=
  let o := tryDownload model_name model_folder model_file proxy net fs
  match o.result with
  | .ok v => ⟨o.fs, o.trace, .ok v⟩
  | .error e =>
    if o.fs.isfile model_file then
      ⟨o.fs.removeFile model_file, o.trace ++ [.removeFile model_file], .error e⟩
    else
      ⟨o.fs, o.trace, .error e⟩

/-- URL model fetcher `check_and_download_external_model`, lines 67 to
133: compute the cache paths; on a cached artifact return the artifact
file path (line 88); otherwise create the cache directory when absent and
download. -/
def check_and_download_external_model (model_name external_cache_dir : String)
    (proxy : Option ProxyConfig) (net : String → NetResult) (fs : FS) : FetchOutcome :=
  let model_folder := model_folder_of external_cache_dir model_name
  let model_file := model_file_of external_cache_dir model_name
  if fs.isdir model_folder then
    if fs.isfile model_file then
      ⟨fs, [], .ok model_file⟩
    else
      downloadExternal model_name model_folder model_file proxy net fs
  else
    match fs.mkdir model_folder with
    | .error e => ⟨fs, [], .error e⟩
    | .ok fs1 =>
      let o := downloadExternal model_name model_folder model_file proxy net fs1
      ⟨o.fs, .mkdirE model_folder :: o.trace, o.result⟩

/-- The keyword-argument bag received by `check_and_download_model_by_name`
through `**kwargs`: each key is present or absent; the `proxy` key, when
present, holds an optional proxy policy. -/
structure Kwargs where
  hf_cache_dir : Option String
  external_cache_dir : Option String
  proxy : Option (Option ProxyConfig)

/-- Dispatcher `check_and_download_model_by_name`, lines 53 to 64: pop the
three configuration keys (a missing key raises `KeyError` in pop order),
classify the identifier with `validators.url` (the third-party classifier
is a parameter `isUrl`), and route to the URL fetcher or the named-model
fetcher. -/
def check_and_download_model_by_name (model_name : String) (loader_fn : Loader)
    (isUrl : String → Bool) (kwargs : Kwargs) (net : String → NetResult) (fs : FS) :
    FetchOutcome :=
  match kwargs.hf_cache_dir with
  | none => ⟨fs, [], .error (.keyError "hf_cache_dir")⟩
  | some hf_cache_dir =>
    match kwargs.external_cache_dir with
    | none => ⟨fs, [], .error (.keyError "external_cache_dir")⟩
    | some external_cache_dir =>
      match kwargs.proxy with
      | none => ⟨fs, [], .error (.keyError "proxy")⟩
      | some proxy =>
        if isUrl model_name then
          check_and_download_external_model model_name external_cache_dir proxy net fs
        else
          check_and_download_hf_model model_name loader_fn hf_cache_dir proxy fs

/- ### The task-argument record and the model set resolver. -/

/-- Modelled from the spec: the ControlNet wrapper of the task-argument
schema (`sd_task/inference_task_args/task_args.py`, outside the provided
sources) with its nested model identifier field. -/
structure ControlnetArgs where
  model : String
deriving Repr, DecidableEq

/-- Modelled from the spec: the LoRA wrapper of the task-argument schema
with its nested model identifier field. -/
structure LoraArgs where
  model : String
deriving Repr, DecidableEq

/-- Modelled from the spec: the task-argument record, with the required
base model slot and the four optional slots, each holding a model
identifier before resolution and the resolved local reference after. -/
structure TaskArgs where
  base_model : String
  vae : Option String
  controlnet : Option ControlnetArgs
  lora : Option LoraArgs
  textual_inversion : Option String
deriving Repr, DecidableEq

/-- Result of a resolution pass over a task-argument record: the record as
mutated so far, the final filesystem, the accumulated trace, and the
outcome of the pass. -/
structure PrepareOutcome where
  args : TaskArgs
  fs : FS
  trace : List Event
  result : Except PyErr Unit

/-- One statement of `check_and_prepare_models`: with no exception raised
so far and the slot present, resolve the slot value through the
dispatcher and assign the result; an exception leaves the record as
mutated so far and aborts the rest of the pass. -/
def resolveSlotStep (readSlot : TaskArgs → Option String)
    (assign : TaskArgs → String → TaskArgs) (loader_fn : Loader) (isUrl : String → Bool)
    (kwargs : Kwargs) (net : String → NetResult) (o : PrepareOutcome) : PrepareOutcome :=
  match o.result with
  | .error _ => o
  | .ok _ =>
    match readSlot o.args with
    | none => o
    | some s =>
      let r := check_and_download_model_by_name s loader_fn isUrl kwargs net o.fs
      match r.result with
      | .ok v => ⟨assign o.args v, r.fs, o.trace ++ r.trace, .ok ()⟩
      | .error e => ⟨o.args, r.fs, o.trace ++ r.trace, .error e⟩

/-- Model set resolver `check_and_prepare_models`, lines 14 to 50: the
five sequential statements of the Python function, each resolving one
slot through the dispatcher; Python exception semantics make every later
statement a no-op once one has raised.  The base model and VAE and
ControlNet slots use `ModelMixin.from_pretrained` (`baseLoader`), the
LoRA slot uses `LoraLoaderMixin.lora_state_dict` (`loraLoader`), and the
textual inversion slot uses `load_textual_inversion_state_dicts`
(`tiLoader`). -/
def check_and_prepare_models (task_args : TaskArgs)
    (baseLoader loraLoader tiLoader : Loader) (isUrl : String → Bool) (kwargs : Kwargs)
    (net : String → NetResult) (fs : FS) : PrepareOutcome :=
  let o0 : PrepareOutcome := ⟨task_args, fs, [], .ok ()⟩
  let o1 := resolveSlotStep (fun a => some a.base_model)
    (fun a v => { a with base_model := v }) baseLoader isUrl kwargs net o0
  let o2 := resolveSlotStep (fun a => a.vae)
    (fun a v => { a with vae := some v }) baseLoader isUrl kwargs net o1
  let o3 := resolveSlotStep (fun a => a.controlnet.map ControlnetArgs.model)
    (fun a v => { a with controlnet := a.controlnet.map fun c => { c with model := v } })
    baseLoader isUrl kwargs net o2
  let o4 := resolveSlotStep (fun a => a.lora.map LoraArgs.model)
    (fun a v => { a with lora := a.lora.map fun c => { c with model := v } })
    loraLoader isUrl kwargs net o3
  let o5 := resolveSlotStep (fun a => a.textual_inversion)
    (fun a v => { a with textual_inversion := some v }) tiLoader isUrl kwargs net o4
  o5

/-- The five model slots of a task-argument record. -/
inductive Slot where
  | base
  | vae
  | controlnet
  | lora
  | textualInversion
deriving Repr, DecidableEq

/-- The identifier held by a slot, when the slot is present. -/
def slotRead : Slot → TaskArgs → Option String
  | .base, a => some a.base_model
  | .vae, a => a.vae
  | .controlnet, a => a.controlnet.map ControlnetArgs.model
  | .lora, a => a.lora.map LoraArgs.model
  | .textualInversion, a => a.textual_inversion

/-- Assignment of a resolved reference back into a slot. -/
def slotAssign : Slot → TaskArgs → String → TaskArgs
  | .base, a, v => { a with base_model := v }
  | .vae, a, v => { a with vae := some v }
  | .controlnet, a, v => { a with controlnet := a.controlnet.map fun c => { c with model := v } }
  | .lora, a, v => { a with lora := a.lora.map fun c => { c with model := v } }
  | .textualInversion, a, v => { a with textual_inversion := some v }

/-- The loader the spec assigns to each slot: the base-model loader for
base, VAE and ControlNet, the LoRA loader for LoRA, and the
textual-inversion loader for textual inversion. -/
def slotLoaderOf (baseLoader loraLoader tiLoader : Loader) : Slot → Loader
  | .lora => loraLoader
  | .textualInversion => tiLoader
  | _ => baseLoader

/-- Modelled from the spec: the slots a resolution pass visits, in the
fixed order of section 4.6 — always the base model, then each optional
slot that is present in the initial record. -/
def presentSlots (a : TaskArgs) : List Slot :=
  [Slot.base]
    ++ (if a.vae.isSome then [Slot.vae] else [])
    ++ (if a.controlnet.isSome then [Slot.controlnet] else [])
    ++ (if a.lora.isSome then [Slot.lora] else [])
    ++ (if a.textual_inversion.isSome then [Slot.textualInversion] else [])

/-- Modelled from the spec: resolve the given slots strictly in sequence;
the first error aborts the pass, leaving the record as mutated so far and
every later slot untouched. -/
def specResolvePass (slots : List Slot) (baseLoader loraLoader tiLoader : Loader)
    (isUrl : String → Bool) (kwargs : Kwargs) (net : String → NetResult)
    (args : TaskArgs) (fs : FS) (trace : List Event) : PrepareOutcome :=
  match slots with
  | [] => ⟨args, fs, trace, .ok ()⟩
  | s :: rest =>
    match slotRead s args with
    | none => specResolvePass rest baseLoader loraLoader tiLoader isUrl kwargs net args fs trace
    | some idv =>
      let r := check_and_download_model_by_name idv (slotLoaderOf baseLoader loraLoader tiLoader s)
        isUrl kwargs net fs
      match r.result with
      | .error e => ⟨args, r.fs, trace ++ r.trace, .error e⟩
      | .ok v => specResolvePass rest baseLoader loraLoader tiLoader isUrl kwargs net
          (slotAssign s args v) r.fs (trace ++ r.trace)

/- ### Basic lemmas about the filesystem model. -/

theorem FS.dirs_writeFile (fs : FS) (p : String) (c : List Nat) :
    (fs.writeFile p c).dirs = fs.dirs := rfl

theorem FS.dirs_appendFile (fs : FS) (p : String) (c : List Nat) :
    (fs.appendFile p c).dirs = fs.dirs := rfl

theorem FS.dirs_removeFile (fs : FS) (p : String) :
    (fs.removeFile p).dirs = fs.dirs := rfl

theorem FS.isfile_writeFile_self (fs : FS) (p : String) (c : List Nat) :
    (fs.writeFile p c).isfile p = true := by
  simp [FS.isfile, FS.findFile, FS.writeFile, List.find?]

theorem find?_filter_ne (l : List (String × List Nat)) (p : String) :
    (l.filter fun e => decide (e.1 ≠ p)).find? (fun e => decide (e.1 = p)) = none := by
  induction l with
  | nil => rfl
  | cons a t ih =>
    by_cases h : a.1 = p
    · simp [List.filter_cons, h, ih]
    · simp [List.filter_cons, h, List.find?, ih]

theorem FS.isfile_removeFile_self (fs : FS) (p : String) :
    (fs.removeFile p).isfile p = false := by
  simp [FS.isfile, FS.findFile, FS.removeFile, find?_filter_ne]

theorem writeChunks_dirs (p : String) (ch : List (List Nat)) (fs : FS) :
    (writeChunks p ch fs).1.dirs = fs.dirs := by
  induction ch generalizing fs with
  | nil => rfl
  | cons c rest ih =>
    by_cases h : c = [] <;> simp [writeChunks, h, ih, FS.dirs_appendFile]

theorem writeChunks_isfile_self (p : String) (ch : List (List Nat)) (fs : FS)
    (h : fs.isfile p = true) : (writeChunks p ch fs).1.isfile p = true := by
  induction ch generalizing fs with
  | nil => exact h
  | cons c rest ih =>
    by_cases hc : c = []
    · simpa [writeChunks, hc] using ih fs h
    · simpa [writeChunks, hc] using ih (fs.appendFile p c) (FS.isfile_writeFile_self fs p _)

theorem FS.isdir_of_mem (fs : FS) (p : String) (h : p ∈ fs.dirs) : fs.isdir p = true := by
  simp [FS.isdir, List.any_eq_true]
  exact h

/- ### Regularity of the hexadecimal digest, for reasoning about joined paths. -/

theorem beBytes_length (k n : Nat) : (beBytes k n).length = k := by
  induction k generalizing n with
  | zero => rfl
  | succ k ih => simp [beBytes, ih]

theorem beBytes_mem_lt (k n : Nat) : ∀ b ∈ beBytes k n, b < 256 := by
  induction k generalizing n with
  | zero => simp [beBytes]
  | succ k ih =>
    intro b hb
    rcases List.mem_cons.mp hb with h | h
    · subst h; exact Nat.mod_lt _ (by omega)
    · exact ih _ b h

theorem sha256Round_length (st : List Nat) (kw : Nat × Nat) :
    (sha256Round st kw).length = st.length := by
  unfold sha256Round
  split
  · simp_all
  · rfl

theorem foldl_sha256Round_length (l : List (Nat × Nat)) (st : List Nat) :
    (l.foldl sha256Round st).length = st.length := by
  induction l generalizing st with
  | nil => rfl
  | cons a t ih => rw [List.foldl_cons, ih, sha256Round_length]

theorem sha256Compress_length (hs block : List Nat) :
    (sha256Compress hs block).length = hs.length := by
  unfold sha256Compress
  rw [List.length_zipWith, foldl_sha256Round_length, Nat.min_self]

theorem foldl_sha256Compress_length (bl : List (List Nat)) (hs : List Nat) :
    (bl.foldl sha256Compress hs).length = hs.length := by
  induction bl generalizing hs with
  | nil => rfl
  | cons a t ih => rw [List.foldl_cons, ih, sha256Compress_length]

theorem flatten_map_beBytes_length (hs : List Nat) :
    ((hs.map (beBytes 4)).flatten).length = 4 * hs.length := by
  induction hs with
  | nil => rfl
  | cons a t ih => simp [ih, beBytes_length]; omega

theorem sha256Bytes_length (m : List Nat) : (sha256Bytes m).length = 32 := by
  unfold sha256Bytes
  rw [flatten_map_beBytes_length, foldl_sha256Compress_length]
  rfl

theorem sha256Bytes_mem_lt (m : List Nat) : ∀ b ∈ sha256Bytes m, b < 256 := by
  intro b hb
  unfold sha256Bytes at hb
  rcases List.mem_flatten.mp hb with ⟨l, hl, hbl⟩
  rcases List.mem_map.mp hl with ⟨w, _, rfl⟩
  exact beBytes_mem_lt 4 w b hbl

theorem toHexChars_length (bs : List Nat) : (toHexChars bs).length = 2 * bs.length := by
  induction bs with
  | nil => rfl
  | cons a t ih => simp [toHexChars] at ih ⊢; omega

theorem hexDigit_ne_slash (n : Nat) (h : n < 16) : hexDigit n ≠ '/' := by
  interval_cases n <;> decide

theorem toHexChars_mem_ne_slash (bs : List Nat) (hb : ∀ b ∈ bs, b < 256) :
    ∀ c ∈ toHexChars bs, c ≠ '/' := by
  intro c hc
  rcases List.mem_flatten.mp hc with ⟨l, hl, hcl⟩
  rcases List.mem_map.mp hl with ⟨b, hbmem, rfl⟩
  have hb256 := hb b hbmem
  rcases List.mem_cons.mp hcl with h | h
  · subst h
    exact hexDigit_ne_slash _ (by omega)
  · rcases List.mem_cons.mp h with h2 | h2
    · subst h2
      exact hexDigit_ne_slash _ (Nat.mod_lt _ (by omega))
    · simp at h2

theorem sha256Hex_data (s : String) :
    (sha256Hex s).data = toHexChars (sha256Bytes (utf8Bytes s)) := rfl

theorem sha256Hex_data_ne_nil (s : String) : (sha256Hex s).data ≠ [] := by
  intro h
  have := congrArg List.length h
  rw [sha256Hex_data, toHexChars_length, sha256Bytes_length] at this
  simp at this

theorem startsWithSlash_sha256Hex (s : String) : startsWithSlash (sha256Hex s) = false := by
  rw [startsWithSlash, decide_eq_false_iff_not]
  intro h
  have hmem : '/' ∈ (sha256Hex s).data := List.mem_of_mem_head? (Option.mem_def.mpr h)
  rw [sha256Hex_data] at hmem
  exact toHexChars_mem_ne_slash _ (sha256Bytes_mem_lt _) _ hmem rfl

theorem endsWithSlash_sha256Hex (s : String) : endsWithSlash (sha256Hex s) = false := by
  rw [endsWithSlash, decide_eq_false_iff_not]
  intro h
  have hmem : '/' ∈ (sha256Hex s).data := List.mem_of_mem_getLast? (Option.mem_def.mpr h)
  rw [sha256Hex_data] at hmem
  exact toHexChars_mem_ne_slash _ (sha256Bytes_mem_lt _) _ hmem rfl

/- ### Shape of the joined cache paths. -/

theorem append_slash_ne_empty (x y : String) : x ++ "/" ++ y ≠ "" := by
  intro h
  have hlen := congrArg (fun s => s.data.length) h
  simp only [show ∀ a b : String, (a ++ b).data = a.data ++ b.data from fun _ _ => rfl,
    List.length_append] at hlen
  simp at hlen

theorem endsWithSlash_append_right (x y : String) (hy : y.data ≠ []) :
    endsWithSlash (x ++ y) = endsWithSlash y := by
  unfold endsWithSlash
  have hdata : (x ++ y).data = x.data ++ y.data := rfl
  rw [hdata, List.getLast?_append_of_ne_nil _ hy]

theorem osPathJoin_of_plain (a b : String) (hb : startsWithSlash b = false) (ha1 : a ≠ "")
    (ha2 : endsWithSlash a = false) : osPathJoin a b = a ++ "/" ++ b := by
  unfold osPathJoin
  rw [hb]
  simp [ha1, ha2]

theorem model_folder_of_eq (r u : String) (h1 : r ≠ "") (h2 : endsWithSlash r = false) :
    model_folder_of r u = r ++ "/" ++ sha256Hex u := by
  unfold model_folder_of
  exact osPathJoin_of_plain r (sha256Hex u) (startsWithSlash_sha256Hex u) h1 h2

theorem model_file_of_eq (r u : String) (h1 : r ≠ "") (h2 : endsWithSlash r = false) :
    model_file_of r u = r ++ "/" ++ sha256Hex u ++ "/" ++ "model.safetensors" := by
  unfold model_file_of
  rw [model_folder_of_eq r u h1 h2]
  refine osPathJoin_of_plain _ _ (by decide) (append_slash_ne_empty _ _) ?_
  rw [show r ++ "/" ++ sha256Hex u = (r ++ "/") ++ sha256Hex u from rfl,
    endsWithSlash_append_right _ _ (sha256Hex_data_ne_nil u)]
  exact endsWithSlash_sha256Hex u

/-- C3: for every identifier string `u` and cache root `r` (a root that is
non-empty and does not itself end in the separator), the cache directory
computed by the URL fetcher is exactly `r`/(hexadecimal SHA-256 of the
UTF-8 bytes of `u`), the artifact file is exactly that directory joined
with `model.safetensors`, and the computation is deterministic: repeated
calls on the same identifier and root give identical paths. -/
theorem cache_location_deterministic_sha256 (u r : String) (h1 : r ≠ "")
    (h2 : endsWithSlash r = false) :
    model_folder_of r u = r ++ "/" ++ sha256Hex u ∧
    model_file_of r u = r ++ "/" ++ sha256Hex u ++ "/" ++ "model.safetensors" ∧
    ∀ u2 r2, u2 = u → r2 = r →
      model_folder_of r2 u2 = model_folder_of r u ∧ model_file_of r2 u2 = model_file_of r u := by
  refine ⟨model_folder_of_eq r u h1 h2, model_file_of_eq r u h1 h2, ?_⟩
  intro u2 r2 hu hr
  subst hu
  subst hr
  exact ⟨rfl, rfl⟩

/-- Witness for C3 at the scenario identifier of the spec and the root
`/cache`. -/
theorem cache_location_deterministic_sha256_witness :
    ("/cache" ≠ "" ∧ endsWithSlash "/cache" = false) ∧
    (model_folder_of "/cache" "https://example.com/model.bin" =
        "/cache" ++ "/" ++ sha256Hex "https://example.com/model.bin" ∧
      model_file_of "/cache" "https://example.com/model.bin" =
        "/cache" ++ "/" ++ sha256Hex "https://example.com/model.bin" ++ "/" ++
          "model.safetensors" ∧
      ∀ u2 r2, u2 = "https://example.com/model.bin" → r2 = "/cache" →
        model_folder_of r2 u2 = model_folder_of "/cache" "https://example.com/model.bin" ∧
          model_file_of r2 u2 = model_file_of "/cache" "https://example.com/model.bin") :=
  ⟨⟨by decide, by decide⟩,
    cache_location_deterministic_sha256 "https://example.com/model.bin" "/cache"
      (by decide) (by decide)⟩

/- ### Dispatcher and named-model fetcher claims. -/

/-- C6: with the three configuration keys present, the dispatcher routes
every identifier to the URL fetcher with the external cache directory
exactly when the classifier accepts it as a URL, and otherwise to the
named-model fetcher with the loader and the HF cache directory; no
identifier is rejected as malformed — the result is always whatever the
chosen fetcher produces. -/
theorem dispatcher_routes_by_url_classification (model_name : String) (loader_fn : Loader)
    (isUrl : String → Bool) (hf ext : String) (pr : Option ProxyConfig)
    (net : String → NetResult) (fs : FS) :
    check_and_download_model_by_name model_name loader_fn isUrl ⟨some hf, some ext, some pr⟩
        net fs =
      if isUrl model_name then check_and_download_external_model model_name ext pr net fs
      else check_and_download_hf_model model_name loader_fn hf pr fs := rfl

/-- C7: the named-model fetcher invokes the loader exactly once, with the
derived proxy mapping, the HF cache directory, half precision and
`resume_download = True`; it returns the identifier unchanged on success
and propagates the loader error unmodified on failure, touching neither
the filesystem nor the network. -/
theorem hf_fetcher_single_call_contract (model_name : String) (loader_fn : Loader)
    (hf_cache_dir : String) (pr : Option ProxyConfig) (fs : FS) :
    check_and_download_hf_model model_name loader_fn hf_cache_dir pr fs =
      ⟨fs,
       [Event.loaderCall model_name
          ⟨get_hf_proxy_dict pr, hf_cache_dir, TorchDtype.float16, true⟩],
       (loader_fn model_name
          ⟨get_hf_proxy_dict pr, hf_cache_dir, TorchDtype.float16, true⟩).map
         fun _ => model_name⟩ := by
  unfold check_and_download_hf_model
  cases h : loader_fn model_name
      ⟨get_hf_proxy_dict pr, hf_cache_dir, TorchDtype.float16, true⟩ <;>
    simp [h, Except.map]

/-- C10: a keyword-argument bag missing any of the three configuration
keys makes the dispatcher fail with the missing-key error of the first
absent key in pop order, before any classification, cache inspection or
network activity: the filesystem is returned unchanged and the trace is
empty. -/
theorem dispatcher_missing_kwarg_key_error (model_name : String) (loader_fn : Loader)
    (isUrl : String → Bool) (kwargs : Kwargs) (net : String → NetResult) (fs : FS)
    (h : kwargs.hf_cache_dir = none ∨ kwargs.external_cache_dir = none ∨ kwargs.proxy = none) :
    check_and_download_model_by_name model_name loader_fn isUrl kwargs net fs =
      ⟨fs, [],
       .error (.keyError
         (if kwargs.hf_cache_dir = none then "hf_cache_dir"
          else if kwargs.external_cache_dir = none then "external_cache_dir"
          else "proxy"))⟩ := by
  obtain ⟨k1, k2, k3⟩ := kwargs
  cases k1 with
  | none => simp [check_and_download_model_by_name]
  | some hf =>
    cases k2 with
    | none => simp [check_and_download_model_by_name]
    | some ext =>
      cases k3 with
      | none => simp [check_and_download_model_by_name]
      | some pr => simp at h

/-- Witness for C10: a bag missing only the `proxy` key. -/
theorem dispatcher_missing_kwarg_key_error_witness :
    ((Kwargs.mk (some "/hf") (some "/ext") none).hf_cache_dir = none ∨
      (Kwargs.mk (some "/hf") (some "/ext") none).external_cache_dir = none ∨
      (Kwargs.mk (some "/hf") (some "/ext") none).proxy = none) ∧
    check_and_download_model_by_name "my-org/my-model" (fun _ _ => .ok ())
        (fun _ => false) (Kwargs.mk (some "/hf") (some "/ext") none)
        (fun _ => .connectError (.exn 0)) ⟨[], []⟩ =
      ⟨⟨[], []⟩, [],
       .error (.keyError
         (if (Kwargs.mk (some "/hf") (some "/ext") none).hf_cache_dir = none then "hf_cache_dir"
          else if (Kwargs.mk (some "/hf") (some "/ext") none).external_cache_dir = none then
            "external_cache_dir"
          else "proxy"))⟩ :=
  ⟨Or.inr (Or.inr rfl),
    dispatcher_missing_kwarg_key_error "my-org/my-model" (fun _ _ => .ok ())
      (fun _ => false) (Kwargs.mk (some "/hf") (some "/ext") none)
      (fun _ => .connectError (.exn 0)) ⟨[], []⟩ (Or.inr (Or.inr rfl))⟩

/- ### Concrete evaluations of the URL fetcher. -/

/-- The HTTP clients constructed during a run, read off the trace. -/
def connectsIn (tr : List Event) : List HttpClient :=
  tr.filterMap fun ev =>
    match ev with
    | .connect c => some c
    | _ => none

set_option maxRecDepth 4000 in
/-- C1 (counterexample evaluation): on a cache hit the URL fetcher returns
the artifact file path, not the cache directory path — the two paths
differ, and only the fresh-download branch returns the directory. -/
theorem cacheHit_returns_artifact_file_path :
    (check_and_download_external_model "https://example.com/model.bin" "/cache" none
        (fun _ => NetResult.connectError (.exn 0))
        ⟨[model_folder_of "/cache" "https://example.com/model.bin"],
         [(model_file_of "/cache" "https://example.com/model.bin", [0])]⟩).result =
      .ok (model_file_of "/cache" "https://example.com/model.bin") ∧
    model_file_of "/cache" "https://example.com/model.bin" ≠
      model_folder_of "/cache" "https://example.com/model.bin" ∧
    (check_and_download_external_model "https://example.com/model.bin" "/cache"
        (some ⟨"", 0, "", ""⟩) (fun _ => NetResult.stream (some 1) [[7]] none)
        ⟨[model_folder_of "/cache" "https://example.com/model.bin"], []⟩).result =
      .ok (model_folder_of "/cache" "https://example.com/model.bin") := by
  refine ⟨?_, ?_, ?_⟩
  · simp only [check_and_download_external_model]
    generalize model_file_of "/cache" "https://example.com/model.bin" = fi
    generalize model_folder_of "/cache" "https://example.com/model.bin" = fo
    have hd : FS.isdir ⟨[fo], [(fi, [0])]⟩ fo = true := FS.isdir_of_mem _ _ (by simp)
    simp [hd, FS.isfile, FS.findFile, List.find?]
  · rw [model_file_of_eq _ _ (by decide) (by decide),
      model_folder_of_eq _ _ (by decide) (by decide)]
    intro heq
    have hlen := congrArg String.length heq
    rw [String.length_append, String.length_append, String.length_append,
      String.length_append] at hlen
    have h1 : ("/cache" : String).length = 6 := rfl
    have h2 : ("/" : String).length = 1 := rfl
    have h3 : ("model.safetensors" : String).length = 17 := rfl
    omega
  · simp only [check_and_download_external_model]
    generalize model_file_of "/cache" "https://example.com/model.bin" = fi
    generalize hfo : model_folder_of "/cache" "https://example.com/model.bin" = fo
    have hd : FS.isdir ⟨[fo], []⟩ fo = true := FS.isdir_of_mem _ _ (by simp)
    simp [hd, downloadExternal, tryDownload, writeChunks, FS.isfile, FS.findFile,
      FS.appendFile, FS.writeFile, List.find?]

set_option maxRecDepth 4000 in
/-- C2 (failing-input evaluation): invoking the URL fetcher with an absent
(`None`) proxy policy does not build a direct client — the unguarded
attribute access `proxy.host` raises `AttributeError` inside the download
path and no client is ever constructed; the direct client is built only
for a present policy whose host is the empty string. -/
theorem url_fetcher_none_proxy_attribute_error :
    ((check_and_download_external_model "https://example.com/model.bin" "/cache" none
        (fun _ => NetResult.stream (some 2048) [[0], [1]] none) ⟨[], []⟩).result =
      .error .attributeError) ∧
    (connectsIn (check_and_download_external_model "https://example.com/model.bin" "/cache" none
        (fun _ => NetResult.stream (some 2048) [[0], [1]] none) ⟨[], []⟩).trace = []) ∧
    ((check_and_download_external_model "https://example.com/model.bin" "/cache"
        (some ⟨"", 0, "", ""⟩) (fun _ => NetResult.stream (some 2048) [[0], [1]] none)
        ⟨[], []⟩).result =
      .ok (model_folder_of "/cache" "https://example.com/model.bin")) ∧
    (connectsIn (check_and_download_external_model "https://example.com/model.bin" "/cache"
        (some ⟨"", 0, "", ""⟩) (fun _ => NetResult.stream (some 2048) [[0], [1]] none)
        ⟨[], []⟩).trace = [HttpClient.direct]) := by
  refine ⟨?_, ?_, ?_, ?_⟩ <;>
    (simp only [check_and_download_external_model]
     generalize model_file_of "/cache" "https://example.com/model.bin" = fi
     generalize model_folder_of "/cache" "https://example.com/model.bin" = fo
     simp [FS.isdir, FS.isfile, FS.findFile, FS.mkdir, downloadExternal, tryDownload,
       writeChunks, FS.appendFile, FS.writeFile, List.find?, connectsIn])

set_option maxRecDepth 4000 in
/-- C8 (proxy resolution, with failing-input evaluation): for the
named-model path an absent policy or empty host yields no proxy and a
non-empty host yields the `host:port` mapping for both protocols; for the
URL fetcher a non-empty host yields a proxying client at `host:port`
whose basic-auth credential pair is attached exactly when both username
and password are non-empty — but an absent policy does not yield the
no-proxy client: it raises `AttributeError`. -/
theorem proxy_resolution_behaviour :
    get_hf_proxy_dict none = none ∧
    get_hf_proxy_dict (some ⟨"", 8080, "u", "p"⟩) = none ∧
    get_hf_proxy_dict (some ⟨"proxyhost", 8080, "", ""⟩) =
      some ⟨"proxyhost:8080", "proxyhost:8080"⟩ ∧
    connectsIn (check_and_download_external_model "http://e.com/m" "/cache"
        (some ⟨"proxyhost", 8080, "", ""⟩) (fun _ => NetResult.stream none [] none)
        ⟨[], []⟩).trace = [HttpClient.proxied "proxyhost:8080" none] ∧
    connectsIn (check_and_download_external_model "http://e.com/m" "/cache"
        (some ⟨"proxyhost", 8080, "user", "pass"⟩) (fun _ => NetResult.stream none [] none)
        ⟨[], []⟩).trace = [HttpClient.proxied "proxyhost:8080" (some "user:pass")] ∧
    connectsIn (check_and_download_external_model "http://e.com/m" "/cache"
        (some ⟨"proxyhost", 8080, "user", ""⟩) (fun _ => NetResult.stream none [] none)
        ⟨[], []⟩).trace = [HttpClient.proxied "proxyhost:8080" none] ∧
    (check_and_download_external_model "http://e.com/m" "/cache" none
        (fun _ => NetResult.stream none [] none) ⟨[], []⟩).result = .error .attributeError := by
  have hps : ("proxyhost:" ++ toString (8080 : Nat)) = "proxyhost:8080" := by decide
  refine ⟨rfl, by simp [get_hf_proxy_dict], by simp [get_hf_proxy_dict, hps], ?_, ?_, ?_, ?_⟩ <;>
    (simp only [check_and_download_external_model]
     generalize model_file_of "/cache" "http://e.com/m" = fi
     generalize model_folder_of "/cache" "http://e.com/m" = fo
     simp [FS.isdir, FS.isfile, FS.findFile, FS.mkdir, downloadExternal, tryDownload,
       writeChunks, FS.appendFile, FS.writeFile, List.find?, connectsIn, hps])

/- ### C5: cache-hit frame and fall-through. -/

/-- C5: when the cache directory exists, the URL fetcher either returns
immediately on a cache hit — unchanged filesystem, empty trace, so zero
network requests and zero filesystem writes — or, when the artifact file
is absent, falls through to a fresh download rather than treating the
bare directory as a hit. -/
theorem cache_hit_frame_and_redownload (u r : String) (pr : Option ProxyConfig)
    (net : String → NetResult) (fs : FS)
    (hd : fs.isdir (model_folder_of r u) = true) :
    check_and_download_external_model u r pr net fs =
      if fs.isfile (model_file_of r u) then
        ⟨fs, [], .ok (model_file_of r u)⟩
      else downloadExternal u (model_folder_of r u) (model_file_of r u) pr net fs := by
  simp only [check_and_download_external_model, hd, if_true]

/-- Witness for C5 at a state where the cache directory exists and the
artifact file is absent. -/
theorem cache_hit_frame_and_redownload_witness :
    (FS.mk [model_folder_of "/cache" "https://example.com/model.bin"] []).isdir
        (model_folder_of "/cache" "https://example.com/model.bin") = true ∧
    check_and_download_external_model "https://example.com/model.bin" "/cache" none
        (fun _ => NetResult.connectError (.exn 0))
        ⟨[model_folder_of "/cache" "https://example.com/model.bin"], []⟩ =
      if (FS.mk [model_folder_of "/cache" "https://example.com/model.bin"] []).isfile
          (model_file_of "/cache" "https://example.com/model.bin") then
        ⟨⟨[model_folder_of "/cache" "https://example.com/model.bin"], []⟩, [],
         .ok (model_file_of "/cache" "https://example.com/model.bin")⟩
      else
        downloadExternal "https://example.com/model.bin"
          (model_folder_of "/cache" "https://example.com/model.bin")
          (model_file_of "/cache" "https://example.com/model.bin") none
          (fun _ => NetResult.connectError (.exn 0))
          ⟨[model_folder_of "/cache" "https://example.com/model.bin"], []⟩ :=
  ⟨FS.isdir_of_mem _ _ (by simp),
    cache_hit_frame_and_redownload "https://example.com/model.bin" "/cache" none
      (fun _ => NetResult.connectError (.exn 0))
      ⟨[model_folder_of "/cache" "https://example.com/model.bin"], []⟩
      (FS.isdir_of_mem _ _ (by simp))⟩

/- ### C4: cleanup on download failure. -/

theorem FS.isdir_eq_of_dirs {a b : FS} (h : a.dirs = b.dirs) (p : String) :
    a.isdir p = b.isdir p := by
  unfold FS.isdir
  rw [h]

theorem downloadExternal_failure (model_name model_folder model_file : String)
    (pc : ProxyConfig) (net : String → NetResult) (fs : FS) (e : PyErr)
    (hFail : net model_name = .connectError e ∨
      ∃ cl ch, net model_name = .stream cl ch (some e)) :
    (downloadExternal model_name model_folder model_file (some pc) net fs).result = .error e ∧
    (downloadExternal model_name model_folder model_file (some pc) net fs).fs.isfile
      model_file = false ∧
    (downloadExternal model_name model_folder model_file (some pc) net fs).fs.dirs = fs.dirs := by
  rcases hFail with h | ⟨cl, ch, h⟩
  · by_cases hf : fs.isfile model_file = true
    · simp [downloadExternal, tryDownload, h, hf, FS.isfile_removeFile_self,
        FS.dirs_removeFile]
    · simp only [Bool.not_eq_true] at hf
      simp [downloadExternal, tryDownload, h, hf]
  · have hf2 : (writeChunks model_file ch (fs.writeFile model_file [])).1.isfile
        model_file = true :=
      writeChunks_isfile_self _ _ _ (FS.isfile_writeFile_self fs _ _)
    simp [downloadExternal, tryDownload, h, hf2, FS.isfile_removeFile_self,
      FS.dirs_removeFile, writeChunks_dirs, FS.dirs_writeFile]

/-- C4: any exception raised during connect, request or streaming makes
the URL fetcher delete the artifact file at the final filename (if
present) and re-raise the same exception, while the enclosing cache
directory is left in place: after a failed fetch no file exists at the
final filename and the directory does. -/
theorem download_failure_removes_partial_file (u r : String) (pc : ProxyConfig)
    (net : String → NetResult) (fs : FS) (e : PyErr)
    (hHit : (fs.isdir (model_folder_of r u) && fs.isfile (model_file_of r u)) = false)
    (hMk : fs.isfile (model_folder_of r u) = false)
    (hFail : net u = .connectError e ∨ ∃ cl ch, net u = .stream cl ch (some e)) :
    (check_and_download_external_model u r (some pc) net fs).result = .error e ∧
    (check_and_download_external_model u r (some pc) net fs).fs.isfile
      (model_file_of r u) = false ∧
    (check_and_download_external_model u r (some pc) net fs).fs.isdir
      (model_folder_of r u) = true := by
  by_cases hd : fs.isdir (model_folder_of r u) = true
  · have hf : fs.isfile (model_file_of r u) = false := by
      rw [hd] at hHit
      simpa using hHit
    obtain ⟨h1, h2, h3⟩ := downloadExternal_failure u (model_folder_of r u)
      (model_file_of r u) pc net fs e hFail
    refine ⟨?_, ?_, ?_⟩ <;>
      simp only [check_and_download_external_model, hd, hf, if_true, Bool.false_eq_true,
        if_false, h1, h2]
    rw [FS.isdir_eq_of_dirs h3]
    exact hd
  · simp only [Bool.not_eq_true] at hd
    obtain ⟨h1, h2, h3⟩ := downloadExternal_failure u (model_folder_of r u)
      (model_file_of r u) pc net ⟨model_folder_of r u :: fs.dirs, fs.files⟩ e hFail
    refine ⟨?_, ?_, ?_⟩ <;>
      simp only [check_and_download_external_model, hd, FS.mkdir, hMk, Bool.false_eq_true,
        if_false, Bool.or_self, h1, h2]
    rw [FS.isdir_eq_of_dirs h3]
    exact FS.isdir_of_mem _ _ (List.mem_cons_self _ _)

/-- Witness for C4: a connect failure on an empty filesystem. -/
theorem download_failure_removes_partial_file_witness :
    (((FS.mk [] []).isdir (model_folder_of "/cache" "https://example.com/model.bin") &&
        (FS.mk [] []).isfile (model_file_of "/cache" "https://example.com/model.bin")) = false ∧
      (FS.mk [] []).isfile (model_folder_of "/cache" "https://example.com/model.bin") = false ∧
      ((fun _ : String => NetResult.connectError (.exn 7)) "https://example.com/model.bin" =
          .connectError (.exn 7) ∨
        ∃ cl ch, (fun _ : String => NetResult.connectError (.exn 7))
            "https://example.com/model.bin" = .stream cl ch (some (.exn 7)))) ∧
    ((check_and_download_external_model "https://example.com/model.bin" "/cache"
        (some ⟨"", 0, "", ""⟩) (fun _ => NetResult.connectError (.exn 7))
        ⟨[], []⟩).result = .error (.exn 7) ∧
      (check_and_download_external_model "https://example.com/model.bin" "/cache"
        (some ⟨"", 0, "", ""⟩) (fun _ => NetResult.connectError (.exn 7))
        ⟨[], []⟩).fs.isfile (model_file_of "/cache" "https://example.com/model.bin") = false ∧
      (check_and_download_external_model "https://example.com/model.bin" "/cache"
        (some ⟨"", 0, "", ""⟩) (fun _ => NetResult.connectError (.exn 7))
        ⟨[], []⟩).fs.isdir (model_folder_of "/cache" "https://example.com/model.bin") = true) :=
  ⟨⟨rfl, rfl, Or.inl rfl⟩,
    download_failure_removes_partial_file "https://example.com/model.bin" "/cache"
      ⟨"", 0, "", ""⟩ (fun _ => NetResult.connectError (.exn 7)) ⟨[], []⟩ (.exn 7)
      rfl rfl (Or.inl rfl)⟩

/- ### C9: the resolution pass. -/

/-- The embedded orchestrator as a chain of per-slot statements, used to
relate it to the spec-side pass. -/
def stepsChain (bl ll tl : Loader) (isUrl : String → Bool) (kw : Kwargs)
    (net : String → NetResult) : List Slot → PrepareOutcome → PrepareOutcome
  | [], o => o
  | s :: rest, o =>
    stepsChain bl ll tl isUrl kw net rest
      (resolveSlotStep (slotRead s) (slotAssign s) (slotLoaderOf bl ll tl s) isUrl kw net o)

/-- Continue a spec-side pass from an intermediate outcome: an already
raised error stops the pass, otherwise the remaining slots run. -/
def contPass (bl ll tl : Loader) (isUrl : String → Bool) (kw : Kwargs)
    (net : String → NetResult) (slots : List Slot) (o : PrepareOutcome) : PrepareOutcome :=
  match o.result with
  | .error _ => o
  | .ok _ => specResolvePass slots bl ll tl isUrl kw net o.args o.fs o.trace

theorem slotRead_isSome_slotAssign (s t : Slot) (args : TaskArgs) (v : String)
    (h : (slotRead s args).isSome = true) :
    (slotRead t (slotAssign s args v)).isSome = (slotRead t args).isSome := by
  cases s <;> cases t <;> simp_all [slotRead, slotAssign]

theorem presentSlots_eq_filter (a : TaskArgs) :
    presentSlots a =
      [Slot.base, .vae, .controlnet, .lora, .textualInversion].filter
        fun s => (slotRead s a).isSome := by
  obtain ⟨bm, vae, cn, lo, ti⟩ := a
  cases vae <;> cases cn <;> cases lo <;> cases ti <;>
    simp [presentSlots, slotRead, List.filter]

theorem stepsChain_eq_contPass (bl ll tl : Loader) (isUrl : String → Bool) (kw : Kwargs)
    (net : String → NetResult) (S : List Slot) (o : PrepareOutcome) :
    stepsChain bl ll tl isUrl kw net S o =
      contPass bl ll tl isUrl kw net (S.filter fun s => (slotRead s o.args).isSome) o := by
  induction S generalizing o with
  | nil =>
    obtain ⟨args, fs, tr, res⟩ := o
    cases res with
    | error e => rfl
    | ok u => cases u; rfl
  | cons s S ih =>
    obtain ⟨args, fs, tr, res⟩ := o
    cases res with
    | error e =>
      rw [show stepsChain bl ll tl isUrl kw net (s :: S) ⟨args, fs, tr, .error e⟩ =
          stepsChain bl ll tl isUrl kw net S ⟨args, fs, tr, .error e⟩ from rfl, ih]
      simp [contPass]
    | ok u =>
      cases u
      cases hread : slotRead s args with
      | none =>
        rw [show stepsChain bl ll tl isUrl kw net (s :: S) ⟨args, fs, tr, .ok ()⟩ =
            stepsChain bl ll tl isUrl kw net S
              (resolveSlotStep (slotRead s) (slotAssign s) (slotLoaderOf bl ll tl s)
                isUrl kw net ⟨args, fs, tr, .ok ()⟩) from rfl]
        simp only [resolveSlotStep, hread]
        rw [ih]
        simp [List.filter_cons, hread]
      | some idv =>
        rw [show stepsChain bl ll tl isUrl kw net (s :: S) ⟨args, fs, tr, .ok ()⟩ =
            stepsChain bl ll tl isUrl kw net S
              (resolveSlotStep (slotRead s) (slotAssign s) (slotLoaderOf bl ll tl s)
                isUrl kw net ⟨args, fs, tr, .ok ()⟩) from rfl]
        simp only [resolveSlotStep, hread]
        cases hres : (check_and_download_model_by_name idv (slotLoaderOf bl ll tl s)
            isUrl kw net fs).result with
        | error e =>
          simp only [hres]
          rw [ih]
          simp [contPass, List.filter_cons, hread, specResolvePass, hres]
        | ok v =>
          simp only [hres]
          rw [ih]
          have hfil : (S.filter fun t => (slotRead t (slotAssign s args v)).isSome) =
              S.filter fun t => (slotRead t args).isSome := by
            apply List.filter_congr
            intro t _
            rw [slotRead_isSome_slotAssign s t args v (by rw [hread]; rfl)]
          simp only [contPass, hfil, List.filter_cons, hread, Option.isSome_some, if_true]
          simp [specResolvePass, hread, hres]

/-- C9: the model set resolver equals the spec-side sequential pass over
exactly the present slots — the base model always, then VAE, ControlNet's
nested model, LoRA's nested model and textual inversion when present, in
that order, each with its prescribed loader; the first error aborts the
pass, leaving the record as mutated so far and the remaining slots
untouched. -/
theorem prepare_models_sequential_first_error (a : TaskArgs) (bl ll tl : Loader)
    (isUrl : String → Bool) (kw : Kwargs) (net : String → NetResult) (fs : FS) :
    check_and_prepare_models a bl ll tl isUrl kw net fs =
      specResolvePass (presentSlots a) bl ll tl isUrl kw net a fs [] := by
  have hA : check_and_prepare_models a bl ll tl isUrl kw net fs =
      stepsChain bl ll tl isUrl kw net
        [Slot.base, .vae, .controlnet, .lora, .textualInversion] ⟨a, fs, [], .ok ()⟩ := rfl
  rw [hA, stepsChain_eq_contPass, presentSlots_eq_filter]
  rfl
